import Mathlib

/-!
Shallow embedding of `src/DriveSystem.cpp` (DJIPupperTests): the drive
system's control-mode state machine, homing sequencer, per-mode control
laws and the safety-checked current-command pipeline.

The embedding is generic over a linear ordered field `K` standing for the
source's `float` arithmetic (idealized, no rounding).  The source's two
transcendental ingredients, the constant `PI` and the function `cos`
(both from headers outside the repository snapshot), enter as explicit
parameters `piK : K` and `cosK : K → K`; theorems that depend on their
actual values are stated at `K = ℝ` with `Real.pi` and `Real.cos`.

Helper code that lives in files missing from the snapshot (`Utils.h`,
kinematics, `PD`/`PDControl3`) is modelled from the spec, as marked on
each definition.
-/

namespace Pupper

/-- Control mode of the drive system (`DriveControlMode` in `DriveSystem.h`,
as used by `DriveSystem.cpp`). -/
inductive DriveControlMode
  | kIdle
  | kHoming
  | kPositionControl
  | kCartesianPositionControl
  | kCurrentControl
  | kError
  deriving DecidableEq

/-- Which of the two CAN buses a torque command goes to (`front_bus_` /
`rear_bus_`). -/
inductive BusId
  | front
  | rear
  deriving DecidableEq

/-- Sub-group selector of a `CommandTorques` call (`C610Subbus`). -/
inductive C610Subbus
  | kIDZeroToThree
  | kIDFourToSeven
  deriving DecidableEq

/-- One `CommandTorques(c0, c1, c2, c3, subbus)` call observed on a bus:
four signed fixed-point milli-amp values and the selector. -/
structure TorqueCommand where
  bus : BusId
  c0 : ℤ
  c1 : ℤ
  c2 : ℤ
  c3 : ℤ
  subbus : C610Subbus
  deriving DecidableEq

/-- A per-actuator 12-vector (`ActuatorPositionVector` and friends). -/
abbrev Vec12 (K : Type) := Fin 12 → K

/-- A per-leg 3-vector (`BLA::Matrix<3>`). -/
abbrev Vec3 (K : Type) := Fin 3 → K

/-- A 3 by 3 matrix (`BLA::Matrix<3, 3>`). -/
abbrev Mat3 (K : Type) := Fin 3 → Fin 3 → K

/-- Scalar PD gains (`PDGains`: `position_gains_.kp`, `position_gains_.kd`). -/
structure Gains (K : Type) where
  kp : K
  kd : K

/-- Matrix PD gains for cartesian control (`cartesian_position_gains_`). -/
structure Gains3x3 (K : Type) where
  kp : Mat3 K
  kd : Mat3 K

/-- Modelled from the spec: the kinematics functions `ForwardKinematics`,
`LegJacobian` and `HipPosition` live in a file that is not in the
repository snapshot; the spec fixes only their shape (stateless pure
functions of the joint angles and the leg index, with the geometry
parameters folded in), so they are parameters of the embedding. -/
structure Kinematics (K : Type) where
  forwardKinematics : Vec3 K → Fin 4 → Vec3 K
  legJacobian : Vec3 K → Fin 4 → Mat3 K
  hipPosition : Fin 4 → Vec3 K

/-- The four `CommandTorques` calls `DriveSystem::CommandCurrents` makes
from a 12-vector of fixed-point milli-amp commands: front bus indices 0-5
in two sub-groups, rear bus indices 6-11 likewise. -/
def busTraffic (mA : Fin 12 → ℤ) : List TorqueCommand :=
  [⟨BusId.front, mA 0, mA 1, mA 2, mA 3, C610Subbus.kIDZeroToThree⟩,
   ⟨BusId.front, mA 4, mA 5, 0, 0, C610Subbus.kIDFourToSeven⟩,
   ⟨BusId.rear, mA 6, mA 7, mA 8, mA 9, C610Subbus.kIDZeroToThree⟩,
   ⟨BusId.rear, mA 10, mA 11, 0, 0, C610Subbus.kIDFourToSeven⟩]

/-- The mutable state of one `DriveSystem` object: the fields of
`DriveSystem.h` that the modelled operations of `DriveSystem.cpp` read or
write (the IMU, printing options and the fixed axis-group index arrays of
the unconsumed `CheckHomingStatus` query are out of scope), plus the
function-local `static` variables of the `just_homed_` smoothing block in
`Update` (a C++ static local is process-lifetime state, so it belongs in
the state record; `statics_initialized` models whether its one-time
initializer has run). -/
structure DriveSystem (K : Type) where
  control_mode : DriveControlMode
  fault_current : K
  fault_position : K
  fault_velocity : K
  max_current : K
  position_reference : Vec12 K
  velocity_reference : Vec12 K
  current_reference : Vec12 K
  active_mask : Fin 12 → Bool
  zero_position : Vec12 K
  start_position : Vec12 K
  cartesian_position_gains : Gains3x3 K
  direction_multipliers : Vec12 K
  current_limit : K
  homing_directions : Vec12 K
  zero_positions_cmd : Vec12 K
  initial_positions : Vec12 K
  homed_axes : Fin 12 → Bool
  just_homed : Bool
  knee_soft_limit : K
  cartesian_position_reference : Vec12 K
  cartesian_velocity_reference : Vec12 K
  ff_force : Vec12 K
  position_gains : Gains K
  last_commanded_current : Vec12 K
  statics_initialized : Bool
  transition_start_time : K
  smoothing_start_positions : Vec12 K
  smoothing_target_positions : Vec12 K

variable {K : Type} [LinearOrderedField K] [FloorRing K]

namespace Utils

/-- Modelled from the spec: `Utils::Constrain` on one element (`Utils.h` is
not in the snapshot; the spec says "clamp every element to `[lo, hi]`",
written here in the C++ conditional style). -/
def constrain1 (x lo hi : K) : K :=
  if x < lo then lo else if hi < x then hi else x

/-- Modelled from the spec: elementwise `Utils::Constrain` on a 12-vector. -/
def Constrain (v : Vec12 K) (lo hi : K) : Vec12 K :=
  fun i => constrain1 (v i) lo hi

/-- Modelled from the spec: `Utils::Maximum`, the largest element of a
12-vector. -/
def Maximum (v : Vec12 K) : K :=
  Finset.univ.sup' ⟨(0 : Fin 12), Finset.mem_univ 0⟩ v

/-- Modelled from the spec: `Utils::Minimum`, the smallest element of a
12-vector. -/
def Minimum (v : Vec12 K) : K :=
  Finset.univ.inf' ⟨(0 : Fin 12), Finset.mem_univ 0⟩ v

/-- Modelled from the spec: `Utils::MaskArray`, zero out entries whose mask
bit is false. -/
def MaskArray (v : Vec12 K) (mask : Fin 12 → Bool) : Vec12 K :=
  fun i => if mask i then v i else 0

/-- Modelled from the spec: `Utils::ElemMultiply`, elementwise product. -/
def ElemMultiply (v w : Vec12 K) : Vec12 K :=
  fun i => v i * w i

/-- Modelled from the spec: `Utils::ConvertToFixedPoint`, scale and round
to nearest integer. -/
def ConvertToFixedPoint (v : Vec12 K) (scale : K) : Fin 12 → ℤ :=
  fun i => round (v i * scale)

/-- Modelled from the spec: `Utils::InfinityNorm3`, the largest absolute
value of a 3-vector's entries. -/
def InfinityNorm3 (v : Vec3 K) : K :=
  max |v 0| (max |v 1| |v 2|)

end Utils

/-- Modelled from the spec: the scalar PD law (`PD` lives in a file missing
from the snapshot; the spec gives
`current = kp*(target-measured) + kd*(targetVel-measuredVel)`). -/
def PD (measuredPos measuredVel targetPos targetVel : K) (gains : Gains K) : K :=
  gains.kp * (targetPos - measuredPos) + gains.kd * (targetVel - measuredVel)

/-- Matrix times 3-vector (`BLA` matrix product, dimensions 3 by 3). -/
def mat3MulVec (m : Mat3 K) (v : Vec3 K) : Vec3 K :=
  fun i => m i 0 * v 0 + m i 1 * v 1 + m i 2 * v 2

/-- Matrix transpose (`~jac` in the source). -/
def mat3T (m : Mat3 K) : Mat3 K :=
  fun i j => m j i

/-- Modelled from the spec: `PDControl3`, the 3-vector PD law with matrix
gains, `force = kp3x3*(targetPos-measuredPos) + kd3x3*(targetVel-measuredVel)`. -/
def PDControl3 (measuredPos measuredVel targetPos targetVel : Vec3 K)
    (gains : Gains3x3 K) : Vec3 K :=
  mat3MulVec gains.kp (targetPos - measuredPos) +
    mat3MulVec gains.kd (targetVel - measuredVel)

namespace DriveSystem

/-- `DriveSystem::GetActuatorPosition`: calibrated position
`(raw - zero) * direction`.  The raw bus telemetry is the tick's input
`raw_pos`. -/
def GetActuatorPosition (s : DriveSystem K) (raw_pos : Vec12 K) (i : Fin 12) : K :=
  (raw_pos i - s.zero_position i) * s.direction_multipliers i

/-- `DriveSystem::GetActuatorPositions`: all twelve calibrated positions. -/
def GetActuatorPositions (s : DriveSystem K) (raw_pos : Vec12 K) : Vec12 K :=
  fun i => s.GetActuatorPosition raw_pos i

/-- `DriveSystem::GetActuatorVelocity`: calibrated velocity
`rawVelocity * direction`. -/
def GetActuatorVelocity (s : DriveSystem K) (raw_vel : Vec12 K) (i : Fin 12) : K :=
  raw_vel i * s.direction_multipliers i

/-- `DriveSystem::CheckErrors`: `kError` when some actuator's calibrated
position magnitude exceeds `fault_position_` or calibrated velocity
magnitude exceeds `fault_velocity_`, else `kIdle`. -/
def CheckErrors (s : DriveSystem K) (raw_pos raw_vel : Vec12 K) : DriveControlMode :=
  if ∃ i : Fin 12, s.fault_position < |s.GetActuatorPosition raw_pos i| ∨
      s.fault_velocity < |s.GetActuatorVelocity raw_vel i| then
    DriveControlMode.kError
  else
    DriveControlMode.kIdle

/-- `DriveSystem::SetIdle`. -/
def SetIdle (s : DriveSystem K) : DriveSystem K :=
  { s with control_mode := DriveControlMode.kIdle }

/-- `DriveSystem::SetJointPositions`: switch to position control and
overwrite the whole joint position reference. -/
def SetJointPositions (s : DriveSystem K) (pos : Vec12 K) : DriveSystem K :=
  { s with control_mode := DriveControlMode.kPositionControl
           position_reference := pos }

/-- `DriveSystem::SetCartesianPositions`: switch to cartesian position
control and overwrite the whole cartesian position reference. -/
def SetCartesianPositions (s : DriveSystem K) (pos : Vec12 K) : DriveSystem K :=
  { s with control_mode := DriveControlMode.kCartesianPositionControl
           cartesian_position_reference := pos }

/-- `DriveSystem::SetCartesianVelocities`: switch to cartesian position
control and overwrite the whole cartesian velocity reference. -/
def SetCartesianVelocities (s : DriveSystem K) (vel : Vec12 K) : DriveSystem K :=
  { s with control_mode := DriveControlMode.kCartesianPositionControl
           cartesian_velocity_reference := vel }

/-- `DriveSystem::SetCurrent`: switch to current control and write the
current reference at index `i` only. -/
def SetCurrent (s : DriveSystem K) (i : Fin 12) (current : K) : DriveSystem K :=
  { s with control_mode := DriveControlMode.kCurrentControl
           current_reference := Function.update s.current_reference i current }

/-- `DriveSystem::SetMaxCurrent`. -/
def SetMaxCurrent (s : DriveSystem K) (m : K) : DriveSystem K :=
  { s with max_current := m }

/-- `DriveSystem::SetActivations`. -/
def SetActivations (s : DriveSystem K) (acts : Fin 12 → Bool) : DriveSystem K :=
  { s with active_mask := acts }

/-- `DriveSystem::ExecuteHomingSequence`: enter `kHoming`, clear all
`homed_axes_`, activate every actuator and cap `max_current_` at
`current_limit_`. -/
def ExecuteHomingSequence (s : DriveSystem K) : DriveSystem K :=
  SetMaxCurrent
    (SetActivations
      { s with control_mode := DriveControlMode.kHoming
               homed_axes := fun _ => false }
      (fun _ => true))
    s.current_limit

/-- `DriveSystem::CommandCurrents`: clamp the requested currents to
`[-max_current_, max_current_]`; if any clamped element's magnitude still
exceeds `fault_current_`, set `kError` and send nothing; otherwise mask
inactive actuators, record `last_commanded_current_`, convert into motor
frames and fixed-point milli-amps, and emit the four `CommandTorques`
calls.  Returns the new state and the bus traffic of the call. -/
def CommandCurrents (s : DriveSystem K) (currents : Vec12 K) :
    DriveSystem K × List TorqueCommand :=
  let current_command := Utils.Constrain currents (-s.max_current) s.max_current
  if s.fault_current < Utils.Maximum current_command ∨
      Utils.Minimum current_command < -s.fault_current then
    ({ s with control_mode := DriveControlMode.kError }, [])
  else
    let masked := Utils.MaskArray current_command s.active_mask
    let framed := Utils.ElemMultiply masked s.direction_multipliers
    ({ s with last_commanded_current := masked },
     busTraffic (Utils.ConvertToFixedPoint framed 1000))

/-- `DriveSystem::CommandIdle`: command all-zero current. -/
def CommandIdle (s : DriveSystem K) : DriveSystem K × List TorqueCommand :=
  s.CommandCurrents (fun _ => 0)

end DriveSystem

/-- The actuator index of joint `j` of leg `l`: `3 * leg_index + j`. -/
def actIdx (l : Fin 4) (j : Fin 3) : Fin 12 :=
  ⟨3 * l.val + j.val, by have h1 := l.isLt; have h2 := j.isLt; omega⟩

namespace DriveSystem

/-- `DriveSystem::LegJointAngles`: the three calibrated joint angles of leg `l`. -/
def LegJointAngles (s : DriveSystem K) (raw_pos : Vec12 K) (l : Fin 4) : Vec3 K :=
  fun j => s.GetActuatorPosition raw_pos (actIdx l j)

/-- `DriveSystem::LegJointVelocities`: the three calibrated joint velocities of leg `l`. -/
def LegJointVelocities (s : DriveSystem K) (raw_vel : Vec12 K) (l : Fin 4) : Vec3 K :=
  fun j => s.GetActuatorVelocity raw_vel (actIdx l j)

/-- `DriveSystem::LegCartesianPositionReference`. -/
def LegCartesianPositionReference (s : DriveSystem K) (l : Fin 4) : Vec3 K :=
  fun j => s.cartesian_position_reference (actIdx l j)

/-- `DriveSystem::LegCartesianVelocityReference`. -/
def LegCartesianVelocityReference (s : DriveSystem K) (l : Fin 4) : Vec3 K :=
  fun j => s.cartesian_velocity_reference (actIdx l j)

/-- `DriveSystem::LegFeedForwardForce`. -/
def LegFeedForwardForce (s : DriveSystem K) (l : Fin 4) : Vec3 K :=
  fun j => s.ff_force (actIdx l j)

/-- The `joint_torques` local of `DriveSystem::CartesianPositionControl`
before saturation: cartesian PD force plus feed-forward force, mapped to
joint torques through the transposed Jacobian. -/
def legRawJointTorques (kin : Kinematics K) (s : DriveSystem K)
    (raw_pos raw_vel : Vec12 K) (l : Fin 4) : Vec3 K :=
  let joint_angles := s.LegJointAngles raw_pos l
  let jac := kin.legJacobian joint_angles l
  let cartesian_forces :=
    PDControl3 (kin.forwardKinematics joint_angles l)
      (mat3MulVec jac (s.LegJointVelocities raw_vel l))
      (s.LegCartesianPositionReference l - kin.hipPosition l)
      (s.LegCartesianVelocityReference l)
      s.cartesian_position_gains +
      s.LegFeedForwardForce l
  mat3MulVec (mat3T jac) cartesian_forces

/-- The `joint_torques` local after the direction-preserving saturation:
scaled by `max_current_ / norm` when the infinity norm exceeds
`max_current_`. -/
def legSaturatedJointTorques (kin : Kinematics K) (s : DriveSystem K)
    (raw_pos raw_vel : Vec12 K) (l : Fin 4) : Vec3 K :=
  if s.max_current < Utils.InfinityNorm3 (legRawJointTorques kin s raw_pos raw_vel l) then
    fun j => legRawJointTorques kin s raw_pos raw_vel l j * s.max_current /
      Utils.InfinityNorm3 (legRawJointTorques kin s raw_pos raw_vel l)
  else
    legRawJointTorques kin s raw_pos raw_vel l

/-- The `knee_constraint_torque` local of
`DriveSystem::CartesianPositionControl`: virtual soft-limit spring torque
on the knee joint, nonzero only when the knee angle is past
`knee_soft_limit`. -/
def kneeConstraintTorque (s : DriveSystem K) (raw_pos : Vec12 K) (l : Fin 4) : K :=
  let knee_angle := s.LegJointAngles raw_pos l 2
  if s.knee_soft_limit < knee_angle then
    s.position_gains.kp * (s.knee_soft_limit - knee_angle)
  else
    0

/-- `DriveSystem::CartesianPositionControl`: the assembled 12-vector of
actuator torques.  Entry `3*l + j` is the saturated joint torque `j` of
leg `l`; the knee entry (`j = 2`) additionally gets the knee soft-limit
torque, added after the saturation. -/
def CartesianPositionControl (kin : Kinematics K) (s : DriveSystem K)
    (raw_pos raw_vel : Vec12 K) : Vec12 K :=
  fun i =>
    let l : Fin 4 := ⟨i.val / 3, by have := i.isLt; omega⟩
    let sat := legSaturatedJointTorques kin s raw_pos raw_vel l
    if i.val % 3 = 2 then
      sat 2 + kneeConstraintTorque s raw_pos l
    else
      sat ⟨i.val % 3, by omega⟩

end DriveSystem

/-- The clamp of the smoothing `progress` local to `[0, 1]` in
`DriveSystem::Update` (position-control branch). -/
def clampProgress (p : K) : K :=
  if p < 0 then 0 else if 1 < p then 1 else p

/-- The `smooth_progress` local of `DriveSystem::Update`:
`0.5 - 0.5 * cos(progress * PI)`, a raised-cosine ease-in/ease-out. -/
def smoothProgress (cosK : K → K) (piK : K) (progress : K) : K :=
  1 / 2 - 1 / 2 * cosK (progress * piK)

/-- One entry of the `interpolated_positions` local of
`DriveSystem::Update`: `start + (target - start) * smooth_progress`. -/
def interpolatePos (start target smooth : K) : K :=
  start + (target - start) * smooth

namespace DriveSystem

/-- The one-time initialization of the three C++ `static` locals of the
`just_homed_` block in `DriveSystem::Update` (`transition_start_time`,
`start_positions`, `target_positions`): a C++ static local initializes on
the first execution of its declaration and never again, so the latch
happens only while `statics_initialized` is still false. -/
def smoothingLatch (s : DriveSystem K) (raw_pos : Vec12 K) (now : K) : DriveSystem K :=
  if s.statics_initialized then s else
    { s with statics_initialized := true
             transition_start_time := now
             smoothing_start_positions := s.GetActuatorPositions raw_pos
             smoothing_target_positions := s.position_reference }

/-- The `pd_current` vector of the `just_homed_` smoothing block: PD toward
the raised-cosine interpolation between the latched start and target
positions, with `progress = clamp((now - transition_start_time)/5000, 0, 1)`.
`s1` is the state after `smoothingLatch`. -/
def smoothingPDCurrents (piK : K) (cosK : K → K) (s1 : DriveSystem K)
    (raw_pos raw_vel : Vec12 K) (now : K) : Vec12 K :=
  fun i =>
    PD (s1.GetActuatorPosition raw_pos i) (s1.GetActuatorVelocity raw_vel i)
      (interpolatePos (s1.smoothing_start_positions i) (s1.smoothing_target_positions i)
        (smoothProgress cosK piK (clampProgress ((now - s1.transition_start_time) / 5000))))
      (s1.velocity_reference i) s1.position_gains

/-- The `pd_current` vector of the plain (not `just_homed_`) position-control
branch: PD toward `position_reference_`. -/
def plainPDCurrents (s : DriveSystem K) (raw_pos raw_vel : Vec12 K) : Vec12 K :=
  fun i =>
    PD (s.GetActuatorPosition raw_pos i) (s.GetActuatorVelocity raw_vel i)
      (s.position_reference i) (s.velocity_reference i) s.position_gains

/-- The `kPositionControl` case of `DriveSystem::Update`.  While
`just_homed_` holds it latches the static locals if not yet initialized
(`smoothingLatch`), commands `smoothingPDCurrents`, and clears
`just_homed_` once progress reaches 1; otherwise it commands
`plainPDCurrents`.  `now` is the tick's `millis()` reading. -/
def positionControlTick (piK : K) (cosK : K → K) (s : DriveSystem K)
    (raw_pos raw_vel : Vec12 K) (now : K) : DriveSystem K × List TorqueCommand :=
  if s.just_homed then
    (if 1 ≤ clampProgress ((now - (smoothingLatch s raw_pos now).transition_start_time) / 5000)
     then
      { ((smoothingLatch s raw_pos now).CommandCurrents
          (smoothingPDCurrents piK cosK (smoothingLatch s raw_pos now) raw_pos raw_vel now)).1
        with just_homed := false }
     else
      ((smoothingLatch s raw_pos now).CommandCurrents
        (smoothingPDCurrents piK cosK (smoothingLatch s raw_pos now) raw_pos raw_vel now)).1,
     ((smoothingLatch s raw_pos now).CommandCurrents
       (smoothingPDCurrents piK cosK (smoothingLatch s raw_pos now) raw_pos raw_vel now)).2)
  else
    s.CommandCurrents (plainPDCurrents s raw_pos raw_vel)

/-- The successful-homing tail of the `kHoming` case of
`DriveSystem::Update` (after the start-position safety check passed, with
`start_position_` already snapshotted): set every zero offset from the
snapshot and the per-actuator homing constants, mark every axis homed,
store the clamped initial pose as the new `position_reference_`, raise
`just_homed_` and switch to `kPositionControl`. -/
def homingSuccessState (piK : K) (s : DriveSystem K) : DriveSystem K :=
  { s with
    zero_position := fun i =>
      s.start_position i -
        s.zero_positions_cmd i * s.direction_multipliers i * s.homing_directions i
    homed_axes := fun _ => true
    position_reference :=
      Utils.Constrain (fun i => s.initial_positions i * s.homing_directions i)
        (-piK) piK
    just_homed := true
    control_mode := DriveControlMode.kPositionControl }

/-- The state after the `kHoming` case snapshots the raw positions and
completes successfully. -/
def homingStep (piK : K) (s : DriveSystem K) (raw_pos : Vec12 K) : DriveSystem K :=
  homingSuccessState piK { s with start_position := raw_pos }

/-- `DriveSystem::Update`: one control tick.  Inputs are the raw bus
telemetry (`raw_pos`, `raw_vel`, index-aligned with the actuators) and
the tick's `millis()` reading `now`; the result is the new state plus
the `CommandTorques` calls the tick put on the buses.  The fault check
runs first and overrides the mode; the `kHoming` case falls through into
`kPositionControl` on success, exactly as the C++ `switch` does. -/
def Update (piK : K) (cosK : K → K) (kin : Kinematics K) (s : DriveSystem K)
    (raw_pos raw_vel : Vec12 K) (now : K) : DriveSystem K × List TorqueCommand :=
  let s :=
    if s.CheckErrors raw_pos raw_vel = DriveControlMode.kError then
      { s with control_mode := DriveControlMode.kError }
    else s
  match s.control_mode with
  | DriveControlMode.kError => s.CommandIdle
  | DriveControlMode.kIdle => s.CommandIdle
  | DriveControlMode.kHoming =>
    if ∃ i : Fin 12, (3 : K) / 20 < |raw_pos i| then
      ({ s with start_position := raw_pos, control_mode := DriveControlMode.kError }, [])
    else
      positionControlTick piK cosK (homingStep piK s raw_pos) raw_pos raw_vel now
  | DriveControlMode.kPositionControl =>
    positionControlTick piK cosK s raw_pos raw_vel now
  | DriveControlMode.kCartesianPositionControl =>
    s.CommandCurrents (CartesianPositionControl kin s raw_pos raw_vel)
  | DriveControlMode.kCurrentControl =>
    s.CommandCurrents s.current_reference

/-- `DriveSystem::DefaultCartesianPositions`: forward kinematics at zero
joint angles plus the hip offset, per leg. -/
def DefaultCartesianPositions (kin : Kinematics K) : Vec12 K :=
  fun i =>
    let l : Fin 4 := ⟨i.val / 3, by have := i.isLt; omega⟩
    (kin.forwardKinematics (fun _ => 0) l + kin.hipPosition l) ⟨i.val % 3, by omega⟩

/-- The `DriveSystem` constructor: the initial state, with the per-joint
homing constants (`backlash`-compensated zero and initial positions) and
the fixed wiring signs.  Fields the C++ constructor leaves untouched
(PD gains, references it does not fill, `last_commanded_current_`, the
smoothing statics) are modelled as zero/false. -/
def init (piK : K) (kin : Kinematics K) : DriveSystem K :=
  let backlash : K := 2 / 80
  let abduction_zero_position : K := 0 + backlash
  let hip_zero_position : K := (90 - 30) * piK / 180 + backlash
  let knee_zero_position : K := (180 - 30) * piK / 180 + backlash
  let abduction_init_position : K := 45 * piK / 180 + backlash
  let hip_init_position : K := 90 * piK / 180 + backlash
  let knee_init_position : K := (180 - 15) * piK / 180 + backlash
  { control_mode := DriveControlMode.kIdle
    fault_current := 10
    fault_position := piK
    fault_velocity := 7
    max_current := 0
    position_reference := fun _ => 0
    velocity_reference := fun _ => 0
    current_reference := fun _ => 0
    active_mask := fun _ => false
    zero_position := fun _ => 0
    start_position := fun _ => 0
    cartesian_position_gains := ⟨fun _ _ => 0, fun _ _ => 0⟩
    direction_multipliers := ![-1, -1, 1, -1, 1, -1, -1, -1, 1, -1, 1, -1]
    current_limit := 2
    homing_directions := ![-1, 1, -1, 1, 1, -1, -1, 1, -1, 1, 1, -1]
    zero_positions_cmd :=
      ![abduction_zero_position, hip_zero_position, knee_zero_position,
        abduction_zero_position, hip_zero_position, knee_zero_position,
        abduction_zero_position, hip_zero_position, knee_zero_position,
        abduction_zero_position, hip_zero_position, knee_zero_position]
    initial_positions :=
      ![abduction_init_position, hip_init_position, knee_init_position,
        abduction_init_position, hip_init_position, knee_init_position,
        abduction_init_position, hip_init_position, knee_init_position,
        abduction_init_position, hip_init_position, knee_init_position]
    homed_axes := fun _ => false
    just_homed := false
    knee_soft_limit := -(piK / 6)
    cartesian_position_reference := DefaultCartesianPositions kin
    cartesian_velocity_reference := fun _ => 0
    ff_force := fun _ => 0
    position_gains := ⟨0, 0⟩
    last_commanded_current := fun _ => 0
    statics_initialized := false
    transition_start_time := 0
    smoothing_start_positions := fun _ => 0
    smoothing_target_positions := fun _ => 0 }

end DriveSystem

/-- Kinematics instance over `ℚ` used by concrete evaluations: every
kinematics function returns the zero vector/matrix (the claims settled at
concrete inputs do not depend on the leg geometry). -/
def kinQ : Kinematics ℚ :=
  ⟨fun _ _ _ => 0, fun _ _ _ _ => 0, fun _ _ => 0⟩

/-- Kinematics instance over `ℝ` used by concrete evaluations. -/
def kinR : Kinematics ℝ :=
  ⟨fun _ _ _ => 0, fun _ _ _ _ => 0, fun _ _ => 0⟩

/-- A concrete drive-system state over `ℚ`, the base input of the concrete
evaluations: idle, default-like limits (`fault_current = 10`,
`fault_position = 3`, `fault_velocity = 7`, `max_current = 0`), zero
offsets, unit direction multipliers, all other fields zero or false. -/
def blankQ : DriveSystem ℚ where
  control_mode := DriveControlMode.kIdle
  fault_current := 10
  fault_position := 3
  fault_velocity := 7
  max_current := 0
  position_reference := fun _ => 0
  velocity_reference := fun _ => 0
  current_reference := fun _ => 0
  active_mask := fun _ => false
  zero_position := fun _ => 0
  start_position := fun _ => 0
  cartesian_position_gains := ⟨fun _ _ => 0, fun _ _ => 0⟩
  direction_multipliers := fun _ => 1
  current_limit := 2
  homing_directions := fun _ => 1
  zero_positions_cmd := fun _ => 0
  initial_positions := fun _ => 0
  homed_axes := fun _ => false
  just_homed := false
  knee_soft_limit := 0
  cartesian_position_reference := fun _ => 0
  cartesian_velocity_reference := fun _ => 0
  ff_force := fun _ => 0
  position_gains := ⟨0, 0⟩
  last_commanded_current := fun _ => 0
  statics_initialized := false
  transition_start_time := 0
  smoothing_start_positions := fun _ => 0
  smoothing_target_positions := fun _ => 0

/-- Concrete input state for the saturation evaluation: `max_current = 2`,
scalar position gains `kp = 6`, `kd = 0`, soft limit 0 (from `blankQ`). -/
def kneeGainQ : DriveSystem ℚ :=
  { blankQ with max_current := 2, position_gains := ⟨6, 0⟩ }

/-- Concrete input state for the smoothing-latch evaluation: a second homing
sequence, with the smoothing statics already initialized by an earlier one
and holding stale values (`transition_start_time = 0` from `blankQ`, start
positions 9). -/
def staleStaticsQ : DriveSystem ℚ :=
  { blankQ with control_mode := DriveControlMode.kHoming
                statics_initialized := true
                smoothing_start_positions := fun _ => 9 }

/-! ## Helper lemmas -/

variable {K : Type} [LinearOrderedField K] [FloorRing K]


lemma fault_guard_iff (c : K) (v : Vec12 K) :
    (c < Utils.Maximum v ∨ Utils.Minimum v < -c) ↔ ∃ i, c < |v i| := by
  constructor
  · rintro (h | h)
    · obtain ⟨i, -, hi⟩ := (Finset.lt_sup'_iff _).mp h
      exact ⟨i, lt_of_lt_of_le hi (le_abs_self _)⟩
    · obtain ⟨i, -, hi⟩ := (Finset.inf'_lt_iff _).mp h
      exact ⟨i, lt_abs.mpr (Or.inr (by linarith))⟩
  · rintro ⟨i, hi⟩
    rcases lt_abs.mp hi with h | h
    · exact Or.inl ((Finset.lt_sup'_iff _).mpr ⟨i, Finset.mem_univ i, h⟩)
    · exact Or.inr ((Finset.inf'_lt_iff _).mpr ⟨i, Finset.mem_univ i, by linarith⟩)

lemma constrain1_bounds {lo hi : K} (x : K) (h : lo ≤ hi) :
    lo ≤ Utils.constrain1 x lo hi ∧ Utils.constrain1 x lo hi ≤ hi := by
  unfold Utils.constrain1
  split_ifs with h1 h2
  · exact ⟨le_refl lo, h⟩
  · exact ⟨h, le_refl hi⟩
  · exact ⟨not_lt.mp h1, not_lt.mp h2⟩

namespace DriveSystem

lemma commandCurrents_fault (s : DriveSystem K) (v : Vec12 K)
    (h : ∃ i, s.fault_current <
      |Utils.constrain1 (v i) (-s.max_current) s.max_current|) :
    s.CommandCurrents v = ({ s with control_mode := DriveControlMode.kError }, []) := by
  have hguard :
      s.fault_current < Utils.Maximum (Utils.Constrain v (-s.max_current) s.max_current) ∨
        Utils.Minimum (Utils.Constrain v (-s.max_current) s.max_current) < -s.fault_current :=
    (fault_guard_iff _ _).mpr h
  simp only [CommandCurrents]
  rw [if_pos hguard]

lemma commandCurrents_ok (s : DriveSystem K) (v : Vec12 K)
    (h : ∀ i, |Utils.constrain1 (v i) (-s.max_current) s.max_current| ≤ s.fault_current) :
    s.CommandCurrents v =
      ({ s with last_commanded_current :=
          Utils.MaskArray (Utils.Constrain v (-s.max_current) s.max_current) s.active_mask },
       busTraffic (Utils.ConvertToFixedPoint
         (Utils.ElemMultiply
           (Utils.MaskArray (Utils.Constrain v (-s.max_current) s.max_current) s.active_mask)
           s.direction_multipliers) 1000)) := by
  have hguard :
      ¬(s.fault_current < Utils.Maximum (Utils.Constrain v (-s.max_current) s.max_current) ∨
        Utils.Minimum (Utils.Constrain v (-s.max_current) s.max_current) < -s.fault_current) := by
    rw [fault_guard_iff]
    push_neg
    exact fun i => h i
  simp only [CommandCurrents]
  rw [if_neg hguard]

lemma commandCurrents_frame (s : DriveSystem K) (v : Vec12 K) :
    (s.CommandCurrents v).1.zero_position = s.zero_position ∧
    (s.CommandCurrents v).1.homed_axes = s.homed_axes ∧
    (s.CommandCurrents v).1.just_homed = s.just_homed ∧
    (s.CommandCurrents v).1.statics_initialized = s.statics_initialized ∧
    (s.CommandCurrents v).1.transition_start_time = s.transition_start_time ∧
    (s.CommandCurrents v).1.smoothing_start_positions = s.smoothing_start_positions ∧
    (s.CommandCurrents v).1.smoothing_target_positions = s.smoothing_target_positions ∧
    (s.CommandCurrents v).1.position_reference = s.position_reference ∧
    (s.CommandCurrents v).1.max_current = s.max_current := by
  simp only [CommandCurrents]
  split <;> exact ⟨rfl, rfl, rfl, rfl, rfl, rfl, rfl, rfl, rfl⟩

lemma commandCurrents_mode_of_error (s : DriveSystem K) (v : Vec12 K)
    (h : s.control_mode = DriveControlMode.kError) :
    (s.CommandCurrents v).1.control_mode = DriveControlMode.kError := by
  simp only [CommandCurrents]
  split
  · rfl
  · exact h

end DriveSystem


lemma constrain1_zero {m : K} (hmax : 0 ≤ m) : Utils.constrain1 (0 : K) (-m) m = 0 := by
  unfold Utils.constrain1
  rw [if_neg (by linarith), if_neg (by linarith)]

namespace DriveSystem

lemma checkErrors_eq_error_iff (s : DriveSystem K) (rp rv : Vec12 K) :
    s.CheckErrors rp rv = DriveControlMode.kError ↔
      ∃ i : Fin 12, s.fault_position < |s.GetActuatorPosition rp i| ∨
        s.fault_velocity < |s.GetActuatorVelocity rv i| := by
  unfold CheckErrors
  split_ifs with h
  · simp [h]
  · simp [h]

lemma commandIdle_zero (s : DriveSystem K) (hmax : 0 ≤ s.max_current)
    (hfc : 0 ≤ s.fault_current) :
    s.CommandIdle = ({ s with last_commanded_current := fun _ => 0 },
      busTraffic (fun _ => 0)) := by
  unfold CommandIdle
  rw [commandCurrents_ok]
  · have hc : Utils.Constrain (fun _ => (0 : K)) (-s.max_current) s.max_current = fun _ => 0 :=
      funext fun _ => constrain1_zero hmax
    rw [hc]
    have hm : Utils.MaskArray (fun _ => (0 : K)) s.active_mask = fun _ => 0 := by
      funext i
      unfold Utils.MaskArray
      split <;> rfl
    rw [hm]
    have he : Utils.ElemMultiply (fun _ => (0 : K)) s.direction_multipliers = fun _ => 0 :=
      funext fun _ => zero_mul _
    rw [he]
    have hf : Utils.ConvertToFixedPoint (fun _ => (0 : K)) 1000 = fun _ => (0 : ℤ) := by
      funext i
      unfold Utils.ConvertToFixedPoint
      rw [zero_mul, round_zero]
    rw [hf]
  · intro i
    rw [show Utils.constrain1 ((fun _ => (0 : K)) i) (-s.max_current) s.max_current = 0 from
      constrain1_zero hmax, abs_zero]
    exact hfc

lemma update_of_checkErrors_error (piK : K) (cosK : K → K) (kin : Kinematics K)
    (s : DriveSystem K) (rp rv : Vec12 K) (now : K)
    (h : s.CheckErrors rp rv = DriveControlMode.kError) :
    Update piK cosK kin s rp rv now =
      DriveSystem.CommandIdle { s with control_mode := DriveControlMode.kError } := by
  simp only [Update]
  rw [if_pos h]

lemma update_of_mode_error (piK : K) (cosK : K → K) (kin : Kinematics K)
    (s : DriveSystem K) (rp rv : Vec12 K) (now : K)
    (h : s.control_mode = DriveControlMode.kError) :
    Update piK cosK kin s rp rv now = s.CommandIdle := by
  have hs : ({ s with control_mode := DriveControlMode.kError } : DriveSystem K) = s := by
    rw [← h]
  by_cases hc : s.CheckErrors rp rv = DriveControlMode.kError
  · rw [update_of_checkErrors_error piK cosK kin s rp rv now hc, hs]
  · simp only [Update]
    rw [if_neg hc]
    simp only [h]

lemma update_homing_abort (piK : K) (cosK : K → K) (kin : Kinematics K)
    (s : DriveSystem K) (rp rv : Vec12 K) (now : K)
    (hchk : ¬ s.CheckErrors rp rv = DriveControlMode.kError)
    (hmode : s.control_mode = DriveControlMode.kHoming)
    (hbad : ∃ i : Fin 12, (3 : K) / 20 < |rp i|) :
    Update piK cosK kin s rp rv now =
      ({ s with start_position := rp, control_mode := DriveControlMode.kError }, []) := by
  simp only [Update]
  rw [if_neg hchk]
  simp only [hmode]
  rw [if_pos hbad]

lemma update_homing_eq (piK : K) (cosK : K → K) (kin : Kinematics K)
    (s : DriveSystem K) (rp rv : Vec12 K) (now : K)
    (hchk : ¬ s.CheckErrors rp rv = DriveControlMode.kError)
    (hmode : s.control_mode = DriveControlMode.kHoming)
    (hok : ∀ i : Fin 12, |rp i| ≤ (3 : K) / 20) :
    Update piK cosK kin s rp rv now =
      positionControlTick piK cosK (homingStep piK s rp) rp rv now := by
  simp only [Update]
  rw [if_neg hchk]
  simp only [hmode]
  rw [if_neg (by push_neg; exact hok)]

end DriveSystem


namespace DriveSystem

lemma smoothingLatch_of_initialized (s : DriveSystem K) (rp : Vec12 K) (now : K)
    (hini : s.statics_initialized = true) : smoothingLatch s rp now = s := by
  unfold smoothingLatch
  rw [if_pos hini]

lemma smoothingLatch_of_uninitialized (s : DriveSystem K) (rp : Vec12 K) (now : K)
    (hini : s.statics_initialized = false) :
    smoothingLatch s rp now =
      { s with statics_initialized := true
               transition_start_time := now
               smoothing_start_positions := s.GetActuatorPositions rp
               smoothing_target_positions := s.position_reference } := by
  unfold smoothingLatch
  rw [if_neg]
  simp [hini]

lemma positionControlTick_statics_smoothing (piK : K) (cosK : K → K)
    (s : DriveSystem K) (rp rv : Vec12 K) (now : K) (hjh : s.just_homed = true) :
    (positionControlTick piK cosK s rp rv now).1.transition_start_time =
      (smoothingLatch s rp now).transition_start_time ∧
    (positionControlTick piK cosK s rp rv now).1.smoothing_start_positions =
      (smoothingLatch s rp now).smoothing_start_positions ∧
    (positionControlTick piK cosK s rp rv now).1.smoothing_target_positions =
      (smoothingLatch s rp now).smoothing_target_positions ∧
    (positionControlTick piK cosK s rp rv now).1.statics_initialized =
      (smoothingLatch s rp now).statics_initialized := by
  unfold positionControlTick
  rw [if_pos hjh]
  refine ⟨?_, ?_, ?_, ?_⟩ <;>
    · split <;>
        first
          | exact (commandCurrents_frame _ _).2.2.2.2.1
          | exact (commandCurrents_frame _ _).2.2.2.2.2.1
          | exact (commandCurrents_frame _ _).2.2.2.2.2.2.1
          | exact (commandCurrents_frame _ _).2.2.2.1

lemma positionControlTick_statics_plain (piK : K) (cosK : K → K)
    (s : DriveSystem K) (rp rv : Vec12 K) (now : K) (hjh : s.just_homed = false) :
    (positionControlTick piK cosK s rp rv now).1.transition_start_time =
      s.transition_start_time ∧
    (positionControlTick piK cosK s rp rv now).1.smoothing_start_positions =
      s.smoothing_start_positions := by
  unfold positionControlTick
  rw [if_neg (by simp [hjh])]
  exact ⟨(commandCurrents_frame _ _).2.2.2.2.1, (commandCurrents_frame _ _).2.2.2.2.2.1⟩

end DriveSystem


lemma abs_le_infinityNorm3 (v : Vec3 K) (j : Fin 3) :
    |v j| ≤ Utils.InfinityNorm3 v := by
  fin_cases j
  · exact le_max_left _ _
  · exact le_trans (le_max_left _ _) (le_max_right _ _)
  · exact le_trans (le_max_right _ _) (le_max_right _ _)

namespace DriveSystem

lemma legSaturated_bounds (kin : Kinematics K) (s : DriveSystem K) (rp rv : Vec12 K)
    (l : Fin 4) (hmax : 0 ≤ s.max_current) (j : Fin 3) :
    |legSaturatedJointTorques kin s rp rv l j| ≤ s.max_current := by
  unfold legSaturatedJointTorques
  split_ifs with h
  · show |legRawJointTorques kin s rp rv l j * s.max_current /
      Utils.InfinityNorm3 (legRawJointTorques kin s rp rv l)| ≤ s.max_current
    have hnorm : 0 < Utils.InfinityNorm3 (legRawJointTorques kin s rp rv l) :=
      lt_of_le_of_lt hmax h
    rw [abs_div, abs_mul, abs_of_nonneg hmax, abs_of_pos hnorm, div_le_iff hnorm]
    calc |legRawJointTorques kin s rp rv l j| * s.max_current
        ≤ Utils.InfinityNorm3 (legRawJointTorques kin s rp rv l) * s.max_current :=
          mul_le_mul_of_nonneg_right (abs_le_infinityNorm3 _ j) hmax
      _ = s.max_current * Utils.InfinityNorm3 (legRawJointTorques kin s rp rv l) :=
          mul_comm _ _
  · exact le_trans (abs_le_infinityNorm3 _ j) (not_lt.mp h)

lemma cartesianPositionControl_entry (kin : Kinematics K) (s : DriveSystem K)
    (rp rv : Vec12 K) (l : Fin 4) (j : Fin 3) :
    CartesianPositionControl kin s rp rv (actIdx l j) =
      if j.val = 2 then
        legSaturatedJointTorques kin s rp rv l 2 + kneeConstraintTorque s rp l
      else legSaturatedJointTorques kin s rp rv l j := by
  fin_cases l <;> fin_cases j <;> rfl

end DriveSystem

/-! ## Claim theorems -/


namespace DriveSystem

variable {K : Type} [LinearOrderedField K] [FloorRing K]

/-- C1: for every requested 12-element current vector, if after clamping each
element to `[-max_current, max_current]` some element's magnitude exceeds
`fault_current`, then `CommandCurrents` sets the control mode to Error, sends
nothing to either bus, and leaves `last_commanded_current` unchanged. -/
theorem commandCurrents_fault_gate (s : DriveSystem K) (currents : Vec12 K)
    (h : ∃ i, s.fault_current <
      |Utils.constrain1 (currents i) (-s.max_current) s.max_current|) :
    (s.CommandCurrents currents).1.control_mode = DriveControlMode.kError ∧
    (s.CommandCurrents currents).2 = [] ∧
    (s.CommandCurrents currents).1.last_commanded_current = s.last_commanded_current := by
  rw [commandCurrents_fault s currents h]
  exact ⟨rfl, rfl, rfl⟩

/-- Witness for C1: state with `max_current = 20`, `fault_current = 10` and
every requested current 15. -/
theorem commandCurrents_fault_gate_witness :
    (({ blankQ with max_current := 20 } : DriveSystem ℚ).CommandCurrents
      (fun _ => 15)).1.control_mode = DriveControlMode.kError :=
  (commandCurrents_fault_gate { blankQ with max_current := 20 } (fun _ => 15)
    ⟨0, by norm_num [Utils.constrain1, blankQ, abs_of_nonneg]⟩).1

/-- C9 (amended): `SetCurrent i v` switches the mode to CurrentControl and
writes only element `i` of `current_reference`, leaving the other eleven
elements as they were; the joint/cartesian setters do overwrite their whole
reference vectors. -/
theorem setCurrent_single_element (s : DriveSystem K) (i : Fin 12) (c : K) :
    (s.SetCurrent i c).control_mode = DriveControlMode.kCurrentControl ∧
    (s.SetCurrent i c).current_reference i = c ∧
    (∀ j, j ≠ i → (s.SetCurrent i c).current_reference j = s.current_reference j) ∧
    (∀ p, (s.SetJointPositions p).position_reference = p) ∧
    (∀ p, (s.SetCartesianPositions p).cartesian_position_reference = p) ∧
    (∀ p, (s.SetCartesianVelocities p).cartesian_velocity_reference = p) := by
  refine ⟨rfl, ?_, ?_, fun _ => rfl, fun _ => rfl, fun _ => rfl⟩
  · show Function.update s.current_reference i c i = c
    exact Function.update_same i c s.current_reference
  · intro j hj
    show Function.update s.current_reference i c j = s.current_reference j
    exact Function.update_noteq hj c s.current_reference

/-- C9 counterexample: with every element of `current_reference` previously 7,
`SetCurrent 0 1` leaves the stale 7 at index 1 — the vector is not replaced
wholesale. -/
theorem setCurrent_stale_element_cex :
    (({ blankQ with current_reference := fun _ => 7 } : DriveSystem ℚ).SetCurrent
      0 1).current_reference 1 = 7 ∧ (7 : ℚ) ≠ 0 := by
  constructor
  · show Function.update (fun _ => (7 : ℚ)) 0 1 1 = 7
    rw [Function.update_noteq (by decide)]
  · norm_num

/-- C10 (amended): when `0 ≤ max_current` and `max_current ≤ fault_current`
hold, the Error branch of `CommandCurrents` is unreachable: the mode is left
unchanged and the command is masked, recorded and dispatched. -/
theorem commandCurrents_no_error_when_nonneg (s : DriveSystem K) (currents : Vec12 K)
    (h0 : 0 ≤ s.max_current) (h1 : s.max_current ≤ s.fault_current) :
    (s.CommandCurrents currents).1.control_mode = s.control_mode ∧
    (s.CommandCurrents currents).1.last_commanded_current =
      Utils.MaskArray (Utils.Constrain currents (-s.max_current) s.max_current)
        s.active_mask ∧
    (s.CommandCurrents currents).2 =
      busTraffic (Utils.ConvertToFixedPoint (Utils.ElemMultiply
        (Utils.MaskArray (Utils.Constrain currents (-s.max_current) s.max_current)
          s.active_mask) s.direction_multipliers) 1000) := by
  have h : ∀ i, |Utils.constrain1 (currents i) (-s.max_current) s.max_current| ≤
      s.fault_current := by
    intro i
    have hb := constrain1_bounds (currents i) (neg_le_self h0)
    exact le_trans (abs_le.mpr ⟨hb.1, hb.2⟩) h1
  rw [commandCurrents_ok s currents h]
  exact ⟨rfl, rfl, rfl⟩

/-- Witness for C10 (amended) at the base state (`max_current = 0`,
`fault_current = 10`). -/
theorem commandCurrents_no_error_when_nonneg_witness :
    ((blankQ : DriveSystem ℚ).CommandCurrents (fun _ => 3)).1.control_mode =
      blankQ.control_mode :=
  (commandCurrents_no_error_when_nonneg blankQ (fun _ => 3)
    (by norm_num [blankQ]) (by norm_num [blankQ])).1

/-- C10 counterexample: with `max_current = -20 ≤ fault_current = -15` (the
claim's hypothesis holds), `CommandCurrents` of the all-zero request reaches
the Error branch, because clamping to the inverted interval produces 20. -/
theorem commandCurrents_negative_max_cex :
    (({ blankQ with max_current := -20, fault_current := -15 } : DriveSystem ℚ).CommandCurrents
      (fun _ => 0)).1.control_mode = DriveControlMode.kError ∧
    ({ blankQ with max_current := -20, fault_current := -15 } : DriveSystem ℚ).max_current ≤
    ({ blankQ with max_current := -20, fault_current := -15 } : DriveSystem ℚ).fault_current := by
  constructor
  · rw [commandCurrents_fault _ _ ⟨0, by norm_num [Utils.constrain1, abs_of_nonneg]⟩]
  · norm_num

end DriveSystem


namespace DriveSystem

variable {K : Type} [LinearOrderedField K] [FloorRing K]

/-- C2 (amended): at the top of every tick, regardless of mode, a calibrated
position beyond `fault_position` or velocity beyond `fault_velocity` forces
mode = Error, and — provided the configured `max_current` and `fault_current`
are nonnegative, as the defaults are — the tick sends the all-zero command to
both buses. -/
theorem update_fault_tick_zero_command (piK : K) (cosK : K → K) (kin : Kinematics K)
    (s : DriveSystem K) (rp rv : Vec12 K) (now : K)
    (hmax : 0 ≤ s.max_current) (hfc : 0 ≤ s.fault_current)
    (hf : ∃ i : Fin 12, s.fault_position < |s.GetActuatorPosition rp i| ∨
      s.fault_velocity < |s.GetActuatorVelocity rv i|) :
    (Update piK cosK kin s rp rv now).1.control_mode = DriveControlMode.kError ∧
    (Update piK cosK kin s rp rv now).2 = busTraffic (fun _ => 0) := by
  have hchk : s.CheckErrors rp rv = DriveControlMode.kError :=
    (checkErrors_eq_error_iff s rp rv).mpr hf
  rw [update_of_checkErrors_error piK cosK kin s rp rv now hchk,
    commandIdle_zero ({ s with control_mode := DriveControlMode.kError }) hmax hfc]
  exact ⟨rfl, rfl⟩

/-- Witness for C2 (amended): the base state with a raw position of 4
(calibrated 4 > fault_position = 3). -/
theorem update_fault_tick_zero_command_witness :
    (Update (3 : ℚ) (fun _ => 1) kinQ blankQ (fun _ => 4) (fun _ => 0) 0).2 =
      busTraffic (fun _ => 0) :=
  (update_fault_tick_zero_command 3 (fun _ => 1) kinQ blankQ (fun _ => 4) (fun _ => 0) 0
    (by norm_num [blankQ]) (by norm_num [blankQ])
    ⟨0, Or.inl (by norm_num [blankQ, GetActuatorPosition, abs_of_nonneg])⟩).2

/-- C2 counterexample: same position fault, but `fault_current` set to -1; the
tick sets mode = Error yet sends nothing at all (the zero idle command itself
trips the current fault gate), so it does not command all-zero current to the
buses. -/
theorem update_fault_tick_no_command_cex :
    (Update (3 : ℚ) (fun _ => 1) kinQ { blankQ with fault_current := -1 }
      (fun _ => 4) (fun _ => 0) 0).1.control_mode = DriveControlMode.kError ∧
    (Update (3 : ℚ) (fun _ => 1) kinQ { blankQ with fault_current := -1 }
      (fun _ => 4) (fun _ => 0) 0).2 = [] := by
  have hchk : CheckErrors { blankQ with fault_current := -1 } (fun _ => 4) (fun _ => 0) =
      DriveControlMode.kError :=
    (checkErrors_eq_error_iff _ _ _).mpr
      ⟨0, Or.inl (by norm_num [blankQ, GetActuatorPosition, abs_of_nonneg])⟩
  rw [update_of_checkErrors_error _ _ _ _ _ _ _ hchk]
  unfold CommandIdle
  rw [commandCurrents_fault _ _ ⟨0, by norm_num [Utils.constrain1, blankQ]⟩]
  exact ⟨rfl, rfl⟩

/-- C3 (amended): Update ticks never leave Error, and `SetIdle` leaves it to
Idle; but every explicit mode setter overwrites the mode unconditionally, so
`SetJointPositions`, `SetCartesianPositions`, `SetCartesianVelocities`,
`SetCurrent` and `ExecuteHomingSequence` also move the system out of Error. -/
theorem error_mode_persistence (piK : K) (cosK : K → K) (kin : Kinematics K)
    (s : DriveSystem K) (rp rv : Vec12 K) (now : K) (p cp cv : Vec12 K)
    (i : Fin 12) (c : K)
    (h : s.control_mode = DriveControlMode.kError) :
    (Update piK cosK kin s rp rv now).1.control_mode = DriveControlMode.kError ∧
    (s.SetIdle).control_mode = DriveControlMode.kIdle ∧
    (s.SetJointPositions p).control_mode = DriveControlMode.kPositionControl ∧
    (s.SetCartesianPositions cp).control_mode = DriveControlMode.kCartesianPositionControl ∧
    (s.SetCartesianVelocities cv).control_mode = DriveControlMode.kCartesianPositionControl ∧
    (s.SetCurrent i c).control_mode = DriveControlMode.kCurrentControl ∧
    (s.ExecuteHomingSequence).control_mode = DriveControlMode.kHoming := by
  refine ⟨?_, rfl, rfl, rfl, rfl, rfl, rfl⟩
  rw [update_of_mode_error piK cosK kin s rp rv now h]
  exact commandCurrents_mode_of_error s _ h

/-- Witness for C3 (amended): a concrete Error state survives an Update tick. -/
theorem error_mode_persistence_witness :
    (Update (3 : ℚ) (fun _ => 1) kinQ
      { blankQ with control_mode := DriveControlMode.kError }
      (fun _ => 0) (fun _ => 0) 0).1.control_mode = DriveControlMode.kError :=
  (error_mode_persistence 3 (fun _ => 1) kinQ _ (fun _ => 0) (fun _ => 0) 0
    (fun _ => 0) (fun _ => 0) (fun _ => 0) 0 0 rfl).1

/-- C3 counterexample: from Error mode, `SetJointPositions` moves the mode to
PositionControl — a setter other than `SetIdle` does leave Error. -/
theorem error_mode_setter_exit_cex :
    (({ blankQ with control_mode := DriveControlMode.kError } : DriveSystem ℚ).SetJointPositions
      (fun _ => 0)).control_mode ≠ DriveControlMode.kError := by
  intro hcontra
  exact DriveControlMode.noConfusion hcontra

/-- C6: on a Homing-mode tick with some raw start position of magnitude over
0.15, the mode becomes Error and neither `zero_position` nor `homed_axes` is
mutated. -/
theorem homing_abort_no_mutation (piK : K) (cosK : K → K) (kin : Kinematics K)
    (s : DriveSystem K) (rp rv : Vec12 K) (now : K)
    (hmode : s.control_mode = DriveControlMode.kHoming)
    (hbad : ∃ i : Fin 12, (3 : K) / 20 < |rp i|) :
    (Update piK cosK kin s rp rv now).1.control_mode = DriveControlMode.kError ∧
    (Update piK cosK kin s rp rv now).1.zero_position = s.zero_position ∧
    (Update piK cosK kin s rp rv now).1.homed_axes = s.homed_axes := by
  by_cases hchk : s.CheckErrors rp rv = DriveControlMode.kError
  · rw [update_of_checkErrors_error piK cosK kin s rp rv now hchk]
    exact ⟨commandCurrents_mode_of_error _ _ rfl,
      (commandCurrents_frame _ _).1, (commandCurrents_frame _ _).2.1⟩
  · rw [update_homing_abort piK cosK kin s rp rv now hchk hmode hbad]
    exact ⟨rfl, rfl, rfl⟩

/-- Witness for C6: Homing state with every raw start position 1 (> 0.15). -/
theorem homing_abort_no_mutation_witness :
    (Update (3 : ℚ) (fun _ => 1) kinQ
      { blankQ with control_mode := DriveControlMode.kHoming }
      (fun _ => 1) (fun _ => 0) 0).1.control_mode = DriveControlMode.kError :=
  (homing_abort_no_mutation 3 (fun _ => 1) kinQ _ (fun _ => 1) (fun _ => 0) 0 rfl
    ⟨0, by norm_num⟩).1

end DriveSystem


namespace DriveSystem

variable {K : Type} [LinearOrderedField K] [FloorRing K]

/-- C4 (amended): in `CartesianPositionControl` the direction-preserving
saturation bounds each leg's three saturated joint torques by `max_current`
(for nonnegative `max_current`), and the abduction and hip entries of the
returned 12-vector respect that bound; but the knee soft-limit torque is
added to the knee entry after the saturation, so the knee entry is the
saturated torque plus the constraint torque and the final 3-vector is not
bounded by `max_current`. -/
theorem cartesian_knee_torque_after_saturation (kin : Kinematics K)
    (s : DriveSystem K) (rp rv : Vec12 K) (l : Fin 4) (hmax : 0 ≤ s.max_current) :
    |CartesianPositionControl kin s rp rv (actIdx l 0)| ≤ s.max_current ∧
    |CartesianPositionControl kin s rp rv (actIdx l 1)| ≤ s.max_current ∧
    Utils.InfinityNorm3 (legSaturatedJointTorques kin s rp rv l) ≤ s.max_current ∧
    CartesianPositionControl kin s rp rv (actIdx l 2) =
      legSaturatedJointTorques kin s rp rv l 2 + kneeConstraintTorque s rp l := by
  refine ⟨?_, ?_, ?_, ?_⟩
  · rw [cartesianPositionControl_entry kin s rp rv l 0, if_neg (by decide)]
    exact legSaturated_bounds kin s rp rv l hmax 0
  · rw [cartesianPositionControl_entry kin s rp rv l 1, if_neg (by decide)]
    exact legSaturated_bounds kin s rp rv l hmax 1
  · exact max_le (legSaturated_bounds kin s rp rv l hmax 0)
      (max_le (legSaturated_bounds kin s rp rv l hmax 1)
        (legSaturated_bounds kin s rp rv l hmax 2))
  · rw [cartesianPositionControl_entry kin s rp rv l 2, if_pos (by decide)]

/-- Witness for C4 (amended) at the base state and zero kinematics. -/
theorem cartesian_knee_torque_after_saturation_witness :
    CartesianPositionControl kinQ blankQ (fun _ => 0) (fun _ => 0) (actIdx 0 2) =
      legSaturatedJointTorques kinQ blankQ (fun _ => 0) (fun _ => 0) 0 2 +
        kneeConstraintTorque blankQ (fun _ => 0) 0 :=
  (cartesian_knee_torque_after_saturation kinQ blankQ (fun _ => 0) (fun _ => 0) 0
    (by norm_num [blankQ])).2.2.2

/-- C4 counterexample: zero Jacobian (so the saturated torques are all zero),
`max_current = 2`, `kp = 6`, knee angle 1 past the soft limit 0: the knee
entry of the returned vector is `-6`, whose magnitude exceeds `max_current`,
so the leg's final torque contribution has infinity norm above the bound. -/
theorem cartesian_inf_norm_exceeds_max_cex :
    ¬(|CartesianPositionControl kinQ
        kneeGainQ
        (fun _ => 1) (fun _ => 0) (actIdx 0 2)| ≤
      kneeGainQ.max_current) := by
  rw [cartesianPositionControl_entry kinQ _ _ _ 0 2, if_pos (by decide)]
  have hraw : legRawJointTorques kinQ
      kneeGainQ
      (fun _ => 1) (fun _ => 0) 0 = fun _ => 0 := by
    funext j
    simp [legRawJointTorques, kinQ, mat3T, mat3MulVec]
  have hsat : legSaturatedJointTorques kinQ
      kneeGainQ
      (fun _ => 1) (fun _ => 0) 0 = fun _ => 0 := by
    unfold legSaturatedJointTorques
    rw [hraw]
    rw [if_neg (by norm_num [Utils.InfinityNorm3, kneeGainQ, blankQ])]
  have hknee : kneeConstraintTorque
      kneeGainQ
      (fun _ => 1) 0 = -6 := by
    unfold kneeConstraintTorque
    rw [if_pos (by norm_num [LegJointAngles, GetActuatorPosition, kneeGainQ, blankQ])]
    norm_num [LegJointAngles, GetActuatorPosition, kneeGainQ, blankQ]
  rw [hsat, hknee]
  norm_num [kneeGainQ, blankQ, abs_of_nonpos]

/-- C7 (amended): the interpolation state of the smoothing handoff is latched
only by the one-time static-local initialization: on a handoff tick with the
statics not yet initialized it latches `transition_start_time = now`, the
current calibrated positions and the current `position_reference`, and marks
the statics initialized; once initialized, a handoff tick never re-latches
any of the three. -/
theorem smoothing_latch_once (piK : K) (cosK : K → K) (s : DriveSystem K)
    (rp rv : Vec12 K) (now : K) (hjh : s.just_homed = true) :
    (s.statics_initialized = false →
      (positionControlTick piK cosK s rp rv now).1.transition_start_time = now ∧
      (positionControlTick piK cosK s rp rv now).1.smoothing_start_positions =
        s.GetActuatorPositions rp ∧
      (positionControlTick piK cosK s rp rv now).1.smoothing_target_positions =
        s.position_reference ∧
      (positionControlTick piK cosK s rp rv now).1.statics_initialized = true) ∧
    (s.statics_initialized = true →
      (positionControlTick piK cosK s rp rv now).1.transition_start_time =
        s.transition_start_time ∧
      (positionControlTick piK cosK s rp rv now).1.smoothing_start_positions =
        s.smoothing_start_positions ∧
      (positionControlTick piK cosK s rp rv now).1.smoothing_target_positions =
        s.smoothing_target_positions) := by
  obtain ⟨h1, h2, h3, h4⟩ := positionControlTick_statics_smoothing piK cosK s rp rv now hjh
  constructor
  · intro hini
    rw [smoothingLatch_of_uninitialized s rp now hini] at h1 h2 h3 h4
    exact ⟨h1, h2, h3, h4⟩
  · intro hini
    rw [smoothingLatch_of_initialized s rp now hini] at h1 h2 h3
    exact ⟨h1, h2, h3⟩

/-- Witness for C7 (amended): a first handoff tick at `now = 5` latches the
transition start time. -/
theorem smoothing_latch_once_witness :
    (positionControlTick (3 : ℚ) (fun _ => 1)
      { blankQ with just_homed := true } (fun _ => 0) (fun _ => 0)
      5).1.transition_start_time = 5 :=
  ((smoothing_latch_once 3 (fun _ => 1) { blankQ with just_homed := true }
    (fun _ => 0) (fun _ => 0) 5 rfl).1 rfl).1

/-- C7 counterexample: a second homing sequence with the statics already
initialized (stale `transition_start_time = 0`, stale start positions 9)
enters the handoff at `now = 7` without re-latching: the start time stays 0
(not 7) and the start positions stay 9 (not the current calibrated
positions, which are 0). -/
theorem smoothing_relatch_cex :
    (Update (3 : ℚ) (fun _ => 1) kinQ
      staleStaticsQ
      (fun _ => 0) (fun _ => 0) 7).1.transition_start_time ≠ 7 ∧
    (Update (3 : ℚ) (fun _ => 1) kinQ
      staleStaticsQ
      (fun _ => 0) (fun _ => 0) 7).1.smoothing_start_positions ≠
      GetActuatorPositions
        staleStaticsQ
        (fun _ => 0) := by
  have hchk : CheckErrors
      staleStaticsQ
      (fun _ => 0) (fun _ => 0) ≠ DriveControlMode.kError := by
    rw [Ne, checkErrors_eq_error_iff]
    rintro ⟨i, h | h⟩ <;>
      norm_num [GetActuatorPosition, GetActuatorVelocity, staleStaticsQ, blankQ] at h
  rw [update_homing_eq 3 (fun _ => 1) kinQ _ (fun _ => 0) (fun _ => 0) 7 hchk rfl
    (fun i => by norm_num)]
  obtain ⟨h1, h2, -, -⟩ := positionControlTick_statics_smoothing 3 (fun _ => 1)
    (homingStep 3 staleStaticsQ (fun _ => 0))
    (fun _ => 0) (fun _ => 0) 7 rfl
  rw [smoothingLatch_of_initialized _ _ _ rfl] at h1 h2
  rw [h1, h2]
  constructor
  · show (0 : ℚ) ≠ 7
    norm_num
  · intro hcontra
    have h0 := congrFun hcontra 0
    norm_num [homingStep, homingSuccessState, GetActuatorPositions, GetActuatorPosition, staleStaticsQ, blankQ] at h0

end DriveSystem


/-- C8: for the smoothing law `smooth(p) = 0.5 - 0.5*cos(p*π)` and the
interpolation `start + (target - start)*smooth`: `smooth(0) = 0`,
`smooth(1) = 1`, `smooth` is monotone non-decreasing on `[0, 1]`, and the
interpolated position equals `start` at progress 0 and `target` at progress
1, for every start/target pair. -/
theorem smoothing_boundary_and_monotone :
    smoothProgress Real.cos Real.pi 0 = 0 ∧
    smoothProgress Real.cos Real.pi 1 = 1 ∧
    MonotoneOn (smoothProgress Real.cos Real.pi) (Set.Icc (0 : ℝ) 1) ∧
    ∀ start target : ℝ,
      interpolatePos start target (smoothProgress Real.cos Real.pi 0) = start ∧
      interpolatePos start target (smoothProgress Real.cos Real.pi 1) = target := by
  have h0 : smoothProgress Real.cos Real.pi 0 = 0 := by
    unfold smoothProgress
    rw [zero_mul, Real.cos_zero]
    norm_num
  have h1 : smoothProgress Real.cos Real.pi 1 = 1 := by
    unfold smoothProgress
    rw [one_mul, Real.cos_pi]
    norm_num
  refine ⟨h0, h1, ?_, ?_⟩
  · intro a ha b hb hab
    unfold smoothProgress
    have hc : Real.cos (b * Real.pi) ≤ Real.cos (a * Real.pi) :=
      Real.cos_le_cos_of_nonneg_of_le_pi
        (mul_nonneg ha.1 Real.pi_pos.le)
        (by
          calc b * Real.pi ≤ 1 * Real.pi :=
                mul_le_mul_of_nonneg_right hb.2 Real.pi_pos.le
            _ = Real.pi := one_mul _)
        (mul_le_mul_of_nonneg_right hab Real.pi_pos.le)
    linarith
  · intro a b
    rw [h0, h1]
    unfold interpolatePos
    constructor
    · ring
    · ring

namespace DriveSystem

/-- C5: on a Homing-mode tick with no pre-dispatch fault and every raw start
position within 0.15, the homing step sets every zero offset to
`start - zero_cmd * direction * homing_direction`, marks every axis homed,
stores the initial pose times the homing direction clamped to `[-π, π]` as
the new position reference, raises `just_homed`, switches to
PositionControl, and the same `Update` call falls through into the
position-control law (the PD currents are computed and commanded by that
very tick). -/
theorem homing_success_same_tick (kin : Kinematics ℝ) (s : DriveSystem ℝ)
    (rp rv : Vec12 ℝ) (now : ℝ)
    (hmode : s.control_mode = DriveControlMode.kHoming)
    (hchk : s.CheckErrors rp rv ≠ DriveControlMode.kError)
    (hok : ∀ i : Fin 12, |rp i| ≤ 3 / 20) :
    (homingStep Real.pi s rp).zero_position = (fun i =>
      rp i - s.zero_positions_cmd i * s.direction_multipliers i *
        s.homing_directions i) ∧
    (homingStep Real.pi s rp).homed_axes = (fun _ => true) ∧
    (homingStep Real.pi s rp).position_reference =
      Utils.Constrain (fun i => s.initial_positions i * s.homing_directions i)
        (-Real.pi) Real.pi ∧
    (homingStep Real.pi s rp).just_homed = true ∧
    (homingStep Real.pi s rp).control_mode = DriveControlMode.kPositionControl ∧
    Update Real.pi Real.cos kin s rp rv now =
      positionControlTick Real.pi Real.cos (homingStep Real.pi s rp) rp rv now :=
  ⟨rfl, rfl, rfl, rfl, rfl,
   update_homing_eq Real.pi Real.cos kin s rp rv now hchk hmode hok⟩

/-- Witness for C5: the freshly constructed drive system after
`ExecuteHomingSequence`, with all raw telemetry zero. -/
theorem homing_success_same_tick_witness :
    (homingStep Real.pi ((init Real.pi kinR).ExecuteHomingSequence)
      (fun _ => 0)).just_homed = true :=
  (homing_success_same_tick kinR ((init Real.pi kinR).ExecuteHomingSequence)
    (fun _ => 0) (fun _ => 0) 0 rfl
    (by
      rw [Ne, checkErrors_eq_error_iff]
      rintro ⟨i, h | h⟩ <;>
        norm_num [GetActuatorPosition, GetActuatorVelocity, ExecuteHomingSequence,
          SetActivations, SetMaxCurrent, init, Real.pi_pos.le, Real.pi_pos.not_lt] at h)
    (fun i => by norm_num)).2.2.2.1

end DriveSystem

end Pupper
